import Mathlib

/-!
Shallow embedding of the JARVIS assistant core (dispatcher + hybrid memory
store) from the repository's TypeScript sources:

* `src/memory/memory-manager.ts` — `MemoryManager` (`getConversationMemory`,
  `updateMemory`, `generateSummary`, the KV/D1 write helpers);
* the orchestrator durable object — `AgentOrchestrator.handleProcess` /
  `selectAgent`;
* `src/agents/research-agent.ts` / `src/agents/task-agent.ts` — the
  `extractFollowUpActions` helpers.

JavaScript string primitives (`toLowerCase`, `includes`, `split('.')`,
`trim`, `join(' ')`, `substring`, `slice`) are embedded as executable
functions on `Char` lists.  External effects (Cloudflare KV reads/writes and
D1 queries) are embedded as explicit state passing over a two-layer store
state plus injectable fault flags; a `Promise` rejection is an
`Except.error`.
-/

/-! ## JavaScript string primitives -/

/-- `c.toLowerCase()` for one character (ASCII range, as the keyword checks
in the source only exercise ASCII). -/
def lowerChar (c : Char) : Char :=
  if c.isUpper then Char.ofNat (c.toNat + 32) else c

/-- `s.toLowerCase()`. -/
def lowerStr (s : String) : String := String.mk (s.data.map lowerChar)

/-- Whether the first list is a leading segment of the second. -/
def leadsList : List Char → List Char → Bool
  | [], _ => true
  | _ :: _, [] => false
  | a :: as, b :: bs => a == b && leadsList as bs

/-- Occurrence of `needle` anywhere in the list (JS `String.includes`). -/
def containsList (needle : List Char) : List Char → Bool
  | [] => leadsList needle []
  | c :: t => leadsList needle (c :: t) || containsList needle t

/-- `s.includes(pat)`. -/
def strIncludes (s pat : String) : Bool := containsList pat.data s.data

/-- `content.split('.')` on the character list: every maximal run between
dots, with empty runs kept, as in JavaScript. -/
def splitOnDot : List Char → List (List Char)
  | [] => [[]]
  | c :: t =>
    if c = '.' then [] :: splitOnDot t
    else
      match splitOnDot t with
      | [] => [[c]]
      | h :: r => (c :: h) :: r

/-- The whitespace the sentence filters in the agents actually meet. -/
def isJsSpace (c : Char) : Bool := c = ' ' || c = '\t' || c = '\n' || c = '\r'

/-- `s.trim()` on the character list. -/
def trimList (l : List Char) : List Char :=
  ((l.dropWhile isJsSpace).reverse.dropWhile isJsSpace).reverse

/-- `s.trim()`. -/
def trimStr (s : String) : String := String.mk (trimList s.data)

/-- `parts.join(' ')`: the parts with one space between consecutive parts. -/
def joinSpace : List (List Char) → List Char
  | [] => []
  | [x] => x
  | x :: y :: r => x ++ ' ' :: joinSpace (y :: r)

/-- `l.slice(-k)` on arrays: the last `k` elements (all of them when the
list is shorter). -/
def lastN (k : Nat) (l : List α) : List α := l.drop (l.length - k)

/-! ## Data model (`src/memory/memory-manager.ts`) -/

/-- One recorded turn (`MemoryEntry`).  The free-form `metadata` record is
kept as an association list. -/
structure MemoryEntry where
  id : String
  conversationId : String
  userInput : String
  agentResponse : String
  agentUsed : String
  timestamp : String
  metadata : Option (List (String × String)) := none
deriving Repr, DecidableEq

/-- The per-conversation aggregate (`ConversationMemory`). -/
structure ConversationMemory where
  conversationId : String
  userId : String
  recentInteractions : List MemoryEntry
  summary : String
  context : List (String × String)
  lastUpdated : String
deriving Repr, DecidableEq

/-- The caller-supplied part of a turn passed to `updateMemory`
(`Omit<MemoryEntry, 'id' | 'conversationId'>`). -/
structure EntryInput where
  userInput : String
  agentResponse : String
  agentUsed : String
  timestamp : String
  metadata : Option (List (String × String)) := none
deriving Repr, DecidableEq

/-- The `MemoryEntry` `updateMemory` builds: the fresh id and the
conversation id around the caller-supplied fields. -/
def mkMemoryEntry (newId cid : String) (e : EntryInput) : MemoryEntry :=
  { id := newId, conversationId := cid, userInput := e.userInput,
    agentResponse := e.agentResponse, agentUsed := e.agentUsed,
    timestamp := e.timestamp, metadata := e.metadata }

/-- The aggregate `updateMemory` starts from when `getConversationMemory`
found nothing. -/
def freshMemory (cid now : String) : ConversationMemory :=
  { conversationId := cid, userId := "unknown", recentInteractions := [],
    summary := "", context := [], lastUpdated := now }

/-- `if (memory.recentInteractions.length > 10) slice(-10)`. -/
def trimInteractions (l : List MemoryEntry) : List MemoryEntry :=
  if 10 < l.length then lastN 10 l else l

/-- `push` followed by the 10-entry trim. -/
def appendEntry (l : List MemoryEntry) (e : MemoryEntry) : List MemoryEntry :=
  trimInteractions (l ++ [e])

/-- `MemoryManager.generateSummary`: the last five entries' `userInput`
joined with spaces, the first 200 characters of that, inside the template
literal `Recent conversation topics: ${...}...`. -/
def generateSummary (interactions : List MemoryEntry) : String :=
  let recentTopics := joinSpace ((lastN 5 interactions).map (fun i => i.userInput.data))
  "Recent conversation topics: " ++ String.mk (recentTopics.take 200) ++ "..."

/-- The in-memory part of `MemoryManager.updateMemory`: append the new
entry, trim to ten, recompute the summary when the trimmed list has at
least three entries, stamp `lastUpdated`. -/
def updateMemoryPure (cid : String) (mem : ConversationMemory) (newId : String)
    (e : EntryInput) (now : String) : ConversationMemory :=
  let interactions := appendEntry mem.recentInteractions (mkMemoryEntry newId cid e)
  { mem with
    recentInteractions := interactions,
    summary := if 3 ≤ interactions.length then generateSummary interactions else mem.summary,
    lastUpdated := now }

/-! ## The two-layer store (`getConversationMemory` and the write path)

The KV cache holds a serialized copy of the aggregate; `JSON.parse` of a
well-formed copy gives the aggregate back and a corrupt copy makes it
throw, so a cached value is either `good m` or `corrupt`.  The D1 row keeps
the columns of the `conversations` table with the `|| '[]'` / `|| ''` /
`|| '{}'` defaults of the source applied on read.  Fault flags inject a
rejection of each awaited external call. -/

/-- What a KV cache slot can deserialize to. -/
inductive CacheVal
  | good (m : ConversationMemory)
  | corrupt
deriving Repr, DecidableEq

/-- A row of the `conversations` D1 table; `none` in a column is SQL NULL,
which the reading code replaces by the empty default. -/
structure DbRow where
  id : String
  user_id : String
  recent_interactions : Option (List MemoryEntry)
  summary : Option String
  context : Option (List (String × String))
  last_updated : String
deriving Repr, DecidableEq

/-- The `ConversationMemory` built from a D1 row in
`getConversationMemory` (the `|| '[]'`-style defaults applied). -/
def rowToMemory (r : DbRow) : ConversationMemory :=
  { conversationId := r.id, userId := r.user_id,
    recentInteractions := r.recent_interactions.getD [],
    summary := r.summary.getD "", context := r.context.getD [],
    lastUpdated := r.last_updated }

/-- The D1 row `updateD1Memory` upserts for an aggregate. -/
def memToRow (m : ConversationMemory) : DbRow :=
  { id := m.conversationId, user_id := m.userId,
    recent_interactions := some m.recentInteractions,
    summary := some m.summary, context := some m.context,
    last_updated := m.lastUpdated }

/-- The two layers for one conversation key: the KV slot (cached value and
the `expirationTtl` it was written with) and the D1 row. -/
structure StoreState where
  kv : Option (CacheVal × Nat)
  d1 : Option DbRow
deriving Repr, DecidableEq

/-- Injectable rejections of the awaited calls inside
`getConversationMemory`: the KV read, the D1 read, and the cache
repopulation write. -/
structure FaultSpec where
  kvGetFault : Bool
  d1ReadFault : Bool
  kvPutFault : Bool
deriving Repr, DecidableEq

/-- All external calls succeed. -/
def noFault : FaultSpec := ⟨false, false, false⟩

/-- The body of `getConversationMemory`'s `try` block: KV first; on a miss
the D1 read; on a D1 hit the cache repopulation `put` with
`expirationTtl: 3600` before returning; `none` when neither layer has the
conversation.  An `error` is a thrown exception. -/
def getMemoryAttempt (f : FaultSpec) (s : StoreState) :
    Except String (Option ConversationMemory × StoreState) :=
  if f.kvGetFault then .error "KV get failed" else
  match s.kv with
  | some (CacheVal.corrupt, _) => .error "JSON parse failed"
  | some (CacheVal.good m, _) => .ok (some m, s)
  | none =>
    if f.d1ReadFault then .error "D1 read failed" else
    match s.d1 with
    | some row =>
      if f.kvPutFault then .error "KV put failed"
      else .ok (some (rowToMemory row),
        { s with kv := some (CacheVal.good (rowToMemory row), 3600) })
    | none => .ok (none, s)

/-- `MemoryManager.getConversationMemory`: the `try` body with the
`catch` that logs and returns `null` (so the state keeps whatever happened
before the throw, which for every fault point is the entry state). -/
def getConversationMemory (f : FaultSpec) (s : StoreState) :
    Option ConversationMemory × StoreState :=
  match getMemoryAttempt f s with
  | .ok r => r
  | .error _ => (none, s)

/-- `MemoryManager.updateMemory`: load (or initialize) the aggregate,
apply the in-memory update, then `await Promise.all([updateKVMemory,
updateD1Memory])` inside a `catch` that rethrows.  `kvPut` / `d1Put` are
the outcomes of the two concurrent writes; `Promise.all` settles `ok` only
when both do, and rejects with the KV rejection first when both writes are
already rejected (handlers are attached in array order).  `ok` carries the
aggregate both stores now hold. -/
def updateMemory (f : FaultSpec) (s : StoreState) (cid : String) (e : EntryInput)
    (newId now : String) (kvPut d1Put : Except String Unit) :
    Except String ConversationMemory :=
  let loaded := (getConversationMemory f s).1
  let mem := loaded.getD (freshMemory cid now)
  let updated := updateMemoryPure cid mem newId e now
  match kvPut, d1Put with
  | .error msg, _ => .error msg
  | .ok _, .error msg => .error msg
  | .ok _, .ok _ => .ok updated

/-! ## Sequential append runs (for the retention and summary invariants) -/

/-- One `updateMemory` call of a sequential run: the caller-supplied turn
plus the fresh id and the timestamp that call drew. -/
structure UpdateCall where
  entry : EntryInput
  newId : String
  now : String
deriving Repr, DecidableEq

/-- The aggregate after a sequence of `updateMemory` calls on one
conversation, each call loading what the previous one wrote, starting from
the implicitly created fresh aggregate. -/
def runUpdates (cid createdAt : String) (calls : List UpdateCall) : ConversationMemory :=
  calls.foldl (fun m c => updateMemoryPure cid m c.newId c.entry c.now)
    (freshMemory cid createdAt)

/-- The `MemoryEntry` list a sequence of calls appends, in call order. -/
def entriesOf (cid : String) (calls : List UpdateCall) : List MemoryEntry :=
  calls.map (fun c => mkMemoryEntry c.newId cid c.entry)

/-! ## Strategy selection (`AgentOrchestrator.selectAgent`) -/

/-- `AgentRequest.type` (the spec's `kind`). -/
inductive RequestType
  | chat
  | task
  | research
  | reasoning
deriving Repr, DecidableEq, BEq

/-- `AgentOrchestrator.selectAgent`, transcribed from the source: the
lowercased content, then the three keyword/type checks in order with
`reasoning` as the default. -/
def selectAgent (ty : RequestType) (content : String) : String :=
  let c := lowerStr content
  if ty == RequestType.research || strIncludes c "search" || strIncludes c "find" ||
      strIncludes c "research" then "research"
  else if ty == RequestType.task || strIncludes c "do" || strIncludes c "execute" ||
      strIncludes c "run" then "task"
  else if ty == RequestType.reasoning || strIncludes c "analyze" || strIncludes c "think" ||
      strIncludes c "reason" then "reasoning"
  else "reasoning"

/-- Whether the content contains one of a keyword list. -/
def keywordHit (c : String) (kws : List String) : Bool := kws.any (fun k => strIncludes c k)

/-- `selectStrategy` as §4.2 step 3 of the specification words it: the
research / task / reasoning checks, each "kind matches or the
case-insensitive content contains one of the keywords", evaluated in that
fixed order, first match winning, `reasoning` as the default. -/
def selectStrategySpec (ty : RequestType) (content : String) : String :=
  let c := lowerStr content
  if ty == RequestType.research || keywordHit c ["search", "find", "research"] then "research"
  else if ty == RequestType.task || keywordHit c ["do", "execute", "run"] then "task"
  else if ty == RequestType.reasoning || keywordHit c ["analyze", "think", "reason"] then "reasoning"
  else "reasoning"

/-! ## Follow-up action extraction (research and task agents) -/

/-- `content.split('.').filter(s => s.trim().length > 0)` — shared by both
agents' extractors. -/
def jsSentences (content : String) : List String :=
  ((splitOnDot content.data).map String.mk).filter (fun s => 0 < (trimList s.data).length)

/-- The fixed keyword set of `ResearchAgent.extractFollowUpActions`. -/
def researchActionKeywords : List String :=
  ["suggest", "recommend", "could also", "might want to", "consider"]

/-- `ResearchAgent.extractFollowUpActions`: the sentences whose lowercased
text contains an action keyword, trimmed, the first three kept.  No
deduplication happens on this path. -/
def researchExtractFollowUpActions (content : String) : List String :=
  (((jsSentences content).filter
      (fun s => researchActionKeywords.any (fun k => strIncludes (lowerStr s) k))).map
    trimStr).take 3

/-- `[...new Set(actions)]`: first occurrences in insertion order. -/
def dedupKeepFirst (l : List String) : List String :=
  l.foldl (fun acc x => if x ∈ acc then acc else acc ++ [x]) []

/-- The collection loop of `TaskAgent.extractFollowUpActions`: for every
sentence and each of the three regex patterns in order, push the trimmed
sentence when the pattern matches and fewer than three actions are
collected.  The regex match outcome is abstracted as `test sentenceIdx
patternIdx`, because the source's `RegExp.test` with the `g` flag is
stateful; every property proved below holds for every matching outcome. -/
def taskCollectActions (test : Nat → Nat → Bool) (sentences : List String) : List String :=
  sentences.enum.foldl
    (fun acc p =>
      (List.range 3).foldl
        (fun acc2 j => if test p.1 j && acc2.length < 3 then acc2 ++ [trimStr p.2] else acc2)
        acc)
    []

/-- `TaskAgent.extractFollowUpActions`: the collection loop over the
non-blank sentences followed by the `Set` deduplication. -/
def taskExtractFollowUpActions (test : Nat → Nat → Bool) (content : String) : List String :=
  dedupKeepFirst (taskCollectActions test (jsSentences content))

/-! ## The orchestrator's `handleProcess` -/

/-- `AgentResponse` as the orchestrator module declares it. -/
structure AgentResponse where
  success : Bool
  content : String
  agentUsed : String
  executionTime : Nat
  metadata : Option (List (String × String))
  followUpActions : Option (List String)
deriving Repr, DecidableEq

/-- The JSON body `handleProcess` serializes: an `AgentResponse`'s fields
plus the top-level `error` field the catch branch adds. -/
structure ProcessBody where
  success : Bool
  content : String
  agentUsed : String
  executionTime : Nat
  metadata : Option (List (String × String))
  followUpActions : Option (List String)
  error : Option String
deriving Repr, DecidableEq

/-- The HTTP response `handleProcess` builds. -/
structure HttpResponse where
  status : Nat
  body : ProcessBody
deriving Repr, DecidableEq

/-- The fixed user-facing message of the orchestrator's catch branch. -/
def orchestratorApology : String :=
  "I encountered an error processing your request. Please try again."

/-- The awaited steps of `handleProcess`'s `try` block after the memory
load: strategy execution, then the memory write; the first rejection
aborts the block. -/
def runProcessPipeline (strategyOutcome : Except String AgentResponse)
    (updateOutcome : Except String ConversationMemory) : Except String AgentResponse :=
  match strategyOutcome with
  | .error msg => .error msg
  | .ok resp =>
    match updateOutcome with
    | .error msg => .error msg
    | .ok _ => .ok resp

/-- `AgentOrchestrator.handleProcess`: on success the response with the
measured `executionTime`, on any caught fault the 500 response whose body
carries the fixed apology, `agentUsed: 'orchestrator'`, `executionTime: 0`
and the fault's message in the top-level `error` field. -/
def handleProcess (pipeline : Except String AgentResponse) (elapsed : Nat) : HttpResponse :=
  match pipeline with
  | .ok r =>
    { status := 200,
      body := { success := r.success, content := r.content, agentUsed := r.agentUsed,
                executionTime := elapsed, metadata := r.metadata,
                followUpActions := r.followUpActions, error := none } }
  | .error msg =>
    { status := 500,
      body := { success := false, content := orchestratorApology,
                agentUsed := "orchestrator", executionTime := 0, metadata := none,
                followUpActions := none, error := some msg } }

/-! ## Specification-side reference definitions (for the refinement claims) -/

/-- The specification's reference summarization (§4.1), following its words:
take the last five entries' `userInput` fields, concatenate them with
single spaces, truncate the concatenation to 200 characters, and wrap the
result as `Recent conversation topics: ` followed by that text. -/
def summarySpecRef (interactions : List MemoryEntry) : String :=
  let lastFive := (interactions.reverse.take 5).reverse
  let concatenated := joinSpace (lastFive.map (fun i => i.userInput.data))
  "Recent conversation topics: " ++ String.mk (concatenated.take 200)

/-- The reference summarization amended with the constant `"..."` suffix
the source's template literal always appends after the truncated text. -/
def summarySpecAmended (interactions : List MemoryEntry) : String :=
  summarySpecRef interactions ++ "..."

/-- A concrete recorded turn used by the closed counterexample statements. -/
def sampleEntry : MemoryEntry :=
  { id := "1", conversationId := "c", userInput := "hi",
    agentResponse := "hello", agentUsed := "reasoning", timestamp := "t" }

/-- A concrete D1 row used by the closed witness statements. -/
def sampleRow : DbRow :=
  { id := "c1", user_id := "u1", recent_interactions := none, summary := none,
    context := none, last_updated := "t0" }

/-! ## Helper lemmas about the trim window -/

theorem lastN_of_le_length {α : Type} {k : Nat} {l : List α} (h : l.length ≤ k) :
    lastN k l = l := by
  simp [lastN, Nat.sub_eq_zero_of_le h]

theorem length_lastN {α : Type} (k : Nat) (l : List α) :
    (lastN k l).length = min k l.length := by
  simp only [lastN, List.length_drop]
  omega

theorem appendEntry_eq_lastN (l : List MemoryEntry) (e : MemoryEntry) :
    appendEntry l e = lastN 10 (l ++ [e]) := by
  unfold appendEntry trimInteractions
  by_cases h : 10 < (l ++ [e]).length
  · rw [if_pos h]
  · rw [if_neg h, lastN_of_le_length (by omega)]

/-- Whatever follows, only the last `k` elements of the front matter for
the last-`k` window of the whole. -/
theorem lastN_lastN_append {α : Type} (k : Nat) (B es : List α) :
    lastN k (lastN k B ++ es) = lastN k (B ++ es) := by
  by_cases hk : B.length ≤ k
  · rw [lastN_of_le_length hk]
  · have hlen : (lastN k B).length = k := by
      rw [length_lastN]; omega
    simp only [lastN, List.length_append, hlen,
      List.drop_append_eq_append_drop, List.drop_drop, List.length_drop]
    have e1 : B.length - k + (B.length - (B.length - k) + es.length - k)
        = B.length + es.length - k := by omega
    have e2 : B.length - (B.length - k) + es.length - k - (B.length - (B.length - k))
        = B.length + es.length - k - B.length := by omega
    rw [e1, e2]

theorem foldl_appendEntry_eq_lastN :
    ∀ (es : List MemoryEntry) (l : List MemoryEntry), l.length ≤ 10 →
      List.foldl appendEntry l es = lastN 10 (l ++ es) := by
  intro es
  induction es with
  | nil => intro l h; simp [lastN_of_le_length h]
  | cons e es ih =>
    intro l h
    rw [List.foldl_cons]
    have hlen : (appendEntry l e).length ≤ 10 := by
      rw [appendEntry_eq_lastN]
      have := length_lastN 10 (l ++ [e])
      omega
    rw [ih (appendEntry l e) hlen, appendEntry_eq_lastN, lastN_lastN_append]
    congr 1
    simp

theorem runUpdates_recentInteractions_eq :
    ∀ (calls : List UpdateCall) (cid : String) (m : ConversationMemory),
      (calls.foldl (fun m c => updateMemoryPure cid m c.newId c.entry c.now) m).recentInteractions
        = List.foldl appendEntry m.recentInteractions (entriesOf cid calls) := by
  intro calls
  induction calls with
  | nil => intro cid m; rfl
  | cons c cs ih =>
    intro cid m
    rw [List.foldl_cons, ih]
    simp only [entriesOf, List.map_cons, List.foldl_cons]
    rfl

theorem generateSummary_ne_empty (l : List MemoryEntry) : generateSummary l ≠ "" := by
  intro h
  have hlen := congrArg String.length h
  rw [show generateSummary l
      = "Recent conversation topics: "
          ++ String.mk ((joinSpace ((lastN 5 l).map (fun i => i.userInput.data))).take 200)
          ++ "..." from rfl] at hlen
  rw [String.length_append, String.length_append] at hlen
  have h1 : ("Recent conversation topics: ").length = 28 := rfl
  have h2 : ("...").length = 3 := rfl
  have h3 : ("").length = 0 := rfl
  omega

theorem appendEntry_length (l : List MemoryEntry) (e : MemoryEntry) :
    (appendEntry l e).length = min (l.length + 1) 10 := by
  rw [appendEntry_eq_lastN, length_lastN]
  simp only [List.length_append, List.length_cons, List.length_nil]
  omega

theorem summary_invariant_step (cid : String) (m : ConversationMemory) (newId : String)
    (e : EntryInput) (now : String)
    (h : m.summary ≠ "" ↔ 3 ≤ m.recentInteractions.length) :
    (updateMemoryPure cid m newId e now).summary ≠ ""
      ↔ 3 ≤ (updateMemoryPure cid m newId e now).recentInteractions.length := by
  have hlen := appendEntry_length m.recentInteractions (mkMemoryEntry newId cid e)
  by_cases h3 : 3 ≤ (appendEntry m.recentInteractions (mkMemoryEntry newId cid e)).length
  · simp [updateMemoryPure, h3, generateSummary_ne_empty]
  · have hnotold : ¬ 3 ≤ m.recentInteractions.length := by omega
    have hsum : m.summary = "" := by
      by_contra hne
      exact hnotold (h.mp hne)
    simp [updateMemoryPure, h3, hsum]

theorem summary_invariant_run (cid : String) :
    ∀ (calls : List UpdateCall) (m : ConversationMemory),
      (m.summary ≠ "" ↔ 3 ≤ m.recentInteractions.length) →
      ((calls.foldl (fun m c => updateMemoryPure cid m c.newId c.entry c.now) m).summary ≠ ""
        ↔ 3 ≤ (calls.foldl
            (fun m c => updateMemoryPure cid m c.newId c.entry c.now) m).recentInteractions.length) := by
  intro calls
  induction calls with
  | nil => intro m h; exact h
  | cons c cs ih =>
    intro m h
    rw [List.foldl_cons]
    exact ih _ (summary_invariant_step cid m c.newId c.entry c.now h)

theorem reverse_take_reverse {α : Type} (k : Nat) (l : List α) :
    (l.reverse.take k).reverse = lastN k l := by
  rw [List.take_reverse, List.reverse_reverse]
  rfl

theorem foldl_preserve {α β : Type} (P : β → Prop) (f : β → α → β)
    (h : ∀ b a, P b → P (f b a)) :
    ∀ (l : List α) (b : β), P b → P (l.foldl f b) := by
  intro l
  induction l with
  | nil => intro b hb; exact hb
  | cons a t ih => intro b hb; exact ih (f b a) (h b a hb)

theorem taskCollect_length_le (test : Nat → Nat → Bool) (sentences : List String) :
    (taskCollectActions test sentences).length ≤ 3 := by
  unfold taskCollectActions
  have hinner : ∀ (p : Nat × String) (acc : List String), acc.length ≤ 3 →
      ((List.range 3).foldl
        (fun acc2 j => if test p.1 j && acc2.length < 3 then acc2 ++ [trimStr p.2] else acc2)
        acc).length ≤ 3 := by
    intro p acc hacc
    refine foldl_preserve (fun acc2 => acc2.length ≤ 3) _ ?_ (List.range 3) acc hacc
    intro acc2 j h2
    by_cases hc : (test p.1 j && decide (acc2.length < 3)) = true
    · rw [if_pos hc]
      simp only [Bool.and_eq_true, decide_eq_true_eq] at hc
      simp only [List.length_append, List.length_cons, List.length_nil]
      omega
    · rw [if_neg hc]
      exact h2
  have hbase : ([] : List String).length ≤ 3 := by simp
  exact foldl_preserve (fun acc => acc.length ≤ 3) _
    (fun acc p hacc => hinner p acc hacc) sentences.enum [] hbase

theorem dedup_foldl_length : ∀ (l acc : List String),
    (l.foldl (fun a x => if x ∈ a then a else a ++ [x]) acc).length ≤ acc.length + l.length := by
  intro l
  induction l with
  | nil => intro acc; simp
  | cons x t ih =>
    intro acc
    rw [List.foldl_cons]
    by_cases hx : x ∈ acc
    · rw [if_pos hx]
      have := ih acc
      simp only [List.length_cons]
      omega
    · rw [if_neg hx]
      have := ih (acc ++ [x])
      simp only [List.length_append, List.length_cons, List.length_nil] at this ⊢
      omega

theorem dedup_foldl_nodup : ∀ (l acc : List String), acc.Nodup →
    (l.foldl (fun a x => if x ∈ a then a else a ++ [x]) acc).Nodup := by
  intro l
  induction l with
  | nil => intro acc h; exact h
  | cons x t ih =>
    intro acc h
    rw [List.foldl_cons]
    by_cases hx : x ∈ acc
    · rw [if_pos hx]; exact ih acc h
    · rw [if_neg hx]
      refine ih _ (List.Nodup.append h (List.nodup_singleton x) ?_)
      intro a ha hb
      simp only [List.mem_singleton] at hb
      subst hb
      exact hx ha

theorem dedupKeepFirst_length_le (l : List String) : (dedupKeepFirst l).length ≤ l.length := by
  have := dedup_foldl_length l []
  simpa [dedupKeepFirst] using this

theorem dedupKeepFirst_nodup (l : List String) : (dedupKeepFirst l).Nodup :=
  dedup_foldl_nodup l [] List.nodup_nil

/-! ## The claims -/

/-- C1 counterexample: with the durable (D1) write succeeding and the cache
(KV) write rejecting, `updateMemory` propagates the cache failure as a
fault instead of completing successfully — `Promise.all` rejects and the
`catch` block rethrows. -/
theorem updateMemory_cache_failure_counterexample :
    updateMemory noFault ⟨none, none⟩ "c1" ⟨"hi", "ok", "reasoning", "t1", none⟩ "id1" "t1"
        (Except.error "KV put failed") (Except.ok ()) = Except.error "KV put failed" := rfl

/-- C1 (amended): a durable-store (D1) write failure propagates as a fault
out of `updateMemory`, and a cache (KV) write failure likewise propagates;
the call completes successfully exactly when both concurrent writes
succeed. -/
theorem updateMemory_failure_propagation :
    (∀ (f : FaultSpec) (s : StoreState) (cid : String) (e : EntryInput) (newId now msg : String),
        updateMemory f s cid e newId now (Except.ok ()) (Except.error msg) = Except.error msg)
      ∧ (∀ (f : FaultSpec) (s : StoreState) (cid : String) (e : EntryInput)
            (newId now msg : String) (d1Put : Except String Unit),
          updateMemory f s cid e newId now (Except.error msg) d1Put = Except.error msg)
      ∧ (∀ (f : FaultSpec) (s : StoreState) (cid : String) (e : EntryInput) (newId now : String)
            (kvPut d1Put : Except String Unit),
          (updateMemory f s cid e newId now kvPut d1Put).isOk = (kvPut.isOk && d1Put.isOk)) := by
  refine ⟨fun _ _ _ _ _ _ _ => rfl, fun _ _ _ _ _ _ _ _ => rfl, ?_⟩
  intro f s cid e newId now kvPut d1Put
  cases kvPut <;> cases d1Put <;> rfl

/-- C2 counterexample: on a caught fault `handleProcess` carries the fault
description in the top-level `error` field of the response body, not in a
`metadata.error` field — the body's `metadata` is absent. -/
theorem handleProcess_metadata_counterexample :
    (handleProcess (runProcessPipeline (Except.error "boom")
        (Except.ok (freshMemory "c1" "t0"))) 5).body.metadata = none
      ∧ (handleProcess (runProcessPipeline (Except.error "boom")
        (Except.ok (freshMemory "c1" "t0"))) 5).body.error = some "boom" :=
  ⟨rfl, rfl⟩

/-- C2 (amended): every fault raised by strategy execution or the memory
write propagates to the top of `handleProcess`, which catches it and
returns a well-formed body with `success = false`, the fixed user-safe
apology as `content` (independent of the fault's description, which is
never interpolated into it), `agentUsed = "orchestrator"`,
`executionTime = 0`, and the fault's description in the body's top-level
`error` field (the `metadata` field is absent); the success path returns
the strategy's response with the measured time and no `error` field.  No
fault escapes: `handleProcess` is a total function into `HttpResponse`. -/
theorem handleProcess_failure_policy :
    (∀ (msg : String) (elapsed : Nat),
        handleProcess (Except.error msg) elapsed
          = ⟨500, ⟨false, orchestratorApology, "orchestrator", 0, none, none, some msg⟩⟩)
      ∧ (∀ (msg : String) (upd : Except String ConversationMemory),
          runProcessPipeline (Except.error msg) upd = Except.error msg)
      ∧ (∀ (resp : AgentResponse) (msg : String),
          runProcessPipeline (Except.ok resp) (Except.error msg) = Except.error msg)
      ∧ (∀ (r : AgentResponse) (elapsed : Nat),
          handleProcess (Except.ok r) elapsed
            = ⟨200, ⟨r.success, r.content, r.agentUsed, elapsed, r.metadata,
                r.followUpActions, none⟩⟩) :=
  ⟨fun _ _ => rfl, fun _ _ => rfl, fun _ _ => rfl, fun _ _ => rfl⟩

/-- C3: after any sequence of `updateMemory` calls on one conversation the
retained interactions are exactly the last (at most) ten appended entries
in insertion order — the oldest are evicted first — and the length never
exceeds ten. -/
theorem recentInteractions_cap_fifo (cid createdAt : String) (calls : List UpdateCall) :
    (runUpdates cid createdAt calls).recentInteractions = lastN 10 (entriesOf cid calls)
      ∧ (runUpdates cid createdAt calls).recentInteractions.length ≤ 10 := by
  have h1 : (runUpdates cid createdAt calls).recentInteractions
      = lastN 10 (entriesOf cid calls) := by
    unfold runUpdates
    rw [runUpdates_recentInteractions_eq]
    have hfresh : (freshMemory cid createdAt).recentInteractions = ([] : List MemoryEntry) := rfl
    rw [hfresh, foldl_appendEntry_eq_lastN _ [] (by simp)]
    simp
  refine ⟨h1, ?_⟩
  rw [h1]
  have := length_lastN 10 (entriesOf cid calls)
  omega

/-- C4: strategy selection is the pure function of the request's type and
content the specification states — the research, task and reasoning
checks in that fixed order with first match winning and `reasoning` as the
default — and the three contract examples resolve as stated. -/
theorem selectAgent_matches_spec :
    (∀ (ty : RequestType) (content : String),
        selectAgent ty content = selectStrategySpec ty content)
      ∧ selectAgent RequestType.chat "please search and execute this" = "research"
      ∧ selectAgent RequestType.chat "run the report" = "task"
      ∧ selectAgent RequestType.chat "hello there" = "reasoning" := by
  refine ⟨?_, by decide, by decide, by decide⟩
  intro ty content
  simp only [selectAgent, selectStrategySpec, keywordHit, List.any_cons, List.any_nil,
    Bool.or_false, Bool.or_assoc]

/-- C5: after every `updateMemory` call of a sequential run the summary is
non-empty exactly when the retained interaction count is at least three,
and one update recomputes the summary exactly when the post-trim count is
at least three (keeping the previous summary otherwise) — the summary is
only ever set on this write path. -/
theorem summary_nonempty_iff_three (cid createdAt : String) (calls : List UpdateCall) :
    ((runUpdates cid createdAt calls).summary ≠ ""
        ↔ 3 ≤ (runUpdates cid createdAt calls).recentInteractions.length)
      ∧ ∀ (m : ConversationMemory) (newId : String) (e : EntryInput) (now : String),
          (updateMemoryPure cid m newId e now).summary
            = if 3 ≤ (appendEntry m.recentInteractions (mkMemoryEntry newId cid e)).length
              then generateSummary (appendEntry m.recentInteractions (mkMemoryEntry newId cid e))
              else m.summary := by
  constructor
  · exact summary_invariant_run cid calls (freshMemory cid createdAt) (by simp [freshMemory])
  · intro m newId e now
    rfl

/-- C6 counterexample: on a one-entry list the source's summary carries a
trailing `"..."` the specification's reference definition does not
produce, so the two differ. -/
theorem generateSummary_suffix_counterexample :
    generateSummary [sampleEntry] = "Recent conversation topics: hi..."
      ∧ summarySpecRef [sampleEntry] = "Recent conversation topics: hi"
      ∧ generateSummary [sampleEntry] ≠ summarySpecRef [sampleEntry] :=
  ⟨by decide, by decide, by decide⟩

/-- C6 (amended): the summarization function equals the reference
definition — last five entries' `userInput`, joined with single spaces,
truncated to 200 characters, wrapped as `Recent conversation topics: ` —
followed by a constant `"..."` suffix. -/
theorem generateSummary_matches_amended_spec (l : List MemoryEntry) :
    generateSummary l = summarySpecAmended l := by
  simp only [generateSummary, summarySpecAmended, summarySpecRef, reverse_take_reverse]

/-- C7: `getConversationMemory` checks the cache first (a cached aggregate
is returned untouched whatever the durable layer holds); on a cache miss
with the durable row present it returns that row's aggregate after
repopulating the cache with a `3600`-second entry, so a second `get` —
even with the durable layer gone — serves the same aggregate from the
cache; and it returns absent, not a fault, when neither layer has the
conversation. -/
theorem getConversationMemory_cache_aside :
    (∀ (s : StoreState) (m : ConversationMemory) (ttl : Nat),
        s.kv = some (CacheVal.good m, ttl) → getConversationMemory noFault s = (some m, s))
      ∧ (∀ (s : StoreState) (row : DbRow), s.kv = none → s.d1 = some row →
          getConversationMemory noFault s
            = (some (rowToMemory row), ⟨some (CacheVal.good (rowToMemory row), 3600), s.d1⟩))
      ∧ (∀ (row : DbRow) (d1After : Option DbRow),
          getConversationMemory noFault ⟨some (CacheVal.good (rowToMemory row), 3600), d1After⟩
            = (some (rowToMemory row), ⟨some (CacheVal.good (rowToMemory row), 3600), d1After⟩))
      ∧ (∀ (s : StoreState), s.kv = none → s.d1 = none →
          getConversationMemory noFault s = (none, s)) := by
  refine ⟨?_, ?_, ?_, ?_⟩
  · rintro ⟨kv, d1⟩ m ttl h
    simp only at h
    subst h
    rfl
  · rintro ⟨kv, d1⟩ row h1 h2
    simp only at h1 h2
    subst h1
    subst h2
    rfl
  · intro row d1After
    rfl
  · rintro ⟨kv, d1⟩ h1 h2
    simp only at h1 h2
    subst h1
    subst h2
    rfl

/-- C7 witness: a concrete cache miss over a present durable row returns
the row's aggregate and repopulates the cache with the 3600-second
entry. -/
theorem getConversationMemory_cache_aside_witness :
    getConversationMemory noFault ⟨none, some sampleRow⟩
      = (some (rowToMemory sampleRow),
          ⟨some (CacheVal.good (rowToMemory sampleRow), 3600), some sampleRow⟩) :=
  getConversationMemory_cache_aside.2.1 ⟨none, some sampleRow⟩ sampleRow rfl rfl

/-- C8 counterexample: `ResearchAgent.extractFollowUpActions` on a content
with two identical action sentences returns a duplicated list — the
research path caps at three but never deduplicates. -/
theorem researchFollowUp_duplicate_counterexample :
    researchExtractFollowUpActions " suggest tea. suggest tea." = ["suggest tea", "suggest tea"]
      ∧ ¬ (researchExtractFollowUpActions " suggest tea. suggest tea.").Nodup :=
  ⟨by decide, by decide⟩

/-- C8 (amended): both extractors return at most three follow-up actions;
the task extractor's list is additionally free of duplicates (the `Set`
pass), while the research extractor only caps without deduplicating —
for every outcome of the task patterns' matching. -/
theorem followUpActions_cap_dedup :
    (∀ content : String, (researchExtractFollowUpActions content).length ≤ 3)
      ∧ (∀ (test : Nat → Nat → Bool) (content : String),
          (taskExtractFollowUpActions test content).length ≤ 3)
      ∧ (∀ (test : Nat → Nat → Bool) (content : String),
          (taskExtractFollowUpActions test content).Nodup) := by
  refine ⟨?_, ?_, ?_⟩
  · intro content
    unfold researchExtractFollowUpActions
    rw [List.length_take]
    omega
  · intro test content
    unfold taskExtractFollowUpActions
    have h1 := dedupKeepFirst_length_le (taskCollectActions test (jsSentences content))
    have h2 := taskCollect_length_le test (jsSentences content)
    omega
  · intro test content
    exact dedupKeepFirst_nodup _

/-- C10: every internal fault of `getConversationMemory` — a KV read
rejection, a corrupt cached value, a D1 read rejection, or a rejection of
the cache repopulation write after a successful durable read — is caught
and the call returns absent with the store untouched, indistinguishable
from a missing conversation; the function is total, so no fault escapes. -/
theorem getConversationMemory_never_throws :
    (∀ (f : FaultSpec) (s : StoreState), f.kvGetFault = true →
        getConversationMemory f s = (none, s))
      ∧ (∀ (f : FaultSpec) (s : StoreState) (ttl : Nat), f.kvGetFault = false →
          s.kv = some (CacheVal.corrupt, ttl) → getConversationMemory f s = (none, s))
      ∧ (∀ (f : FaultSpec) (s : StoreState), f.kvGetFault = false → s.kv = none →
          f.d1ReadFault = true → getConversationMemory f s = (none, s))
      ∧ (∀ (s : StoreState) (row : DbRow), s.kv = none → s.d1 = some row →
          getConversationMemory ⟨false, false, true⟩ s = (none, s)) := by
  refine ⟨?_, ?_, ?_, ?_⟩
  · rintro ⟨g, r, p⟩ s h
    simp only at h
    subst h
    rfl
  · rintro ⟨g, r, p⟩ ⟨kv, d1⟩ ttl h1 h2
    simp only at h1 h2
    subst h1
    subst h2
    rfl
  · rintro ⟨g, r, p⟩ ⟨kv, d1⟩ h1 h2 h3
    simp only at h1 h2 h3
    subst h1
    subst h2
    subst h3
    rfl
  · rintro ⟨kv, d1⟩ row h1 h2
    simp only at h1 h2
    subst h1
    subst h2
    rfl

/-- C10 witness: with the repopulation write rejecting after a successful
durable read, the call returns absent and leaves the store unchanged. -/
theorem getConversationMemory_never_throws_witness :
    getConversationMemory ⟨false, false, true⟩ ⟨none, some sampleRow⟩
      = (none, ⟨none, some sampleRow⟩) :=
  getConversationMemory_never_throws.2.2.2 ⟨none, some sampleRow⟩ sampleRow rfl rfl
